import Mathlib

/-!
Verification of the status-polling core of `src/dashboard.py`.

The probes perform I/O (a Windows service-manager query via
`psutil.win_service_get`, and a TCP `connect_ex`); they are embedded as
functions of an explicit oracle describing the outside world:

* `ServiceEnv` maps a service name to either the status string returned by
  `psutil.win_service_get(name).status()` or to the exception message raised
  by the query (`Except.error`).
* `NetEnv` maps `(timeout, host, port)` to the integer error code returned
  by `socket.connect_ex` after `settimeout(timeout)`; per the socket API the
  code is `0` exactly when the connection was accepted.

Python `dict`s (insertion-ordered; `update` of an existing key replaces the
value but keeps the key's original position) are embedded as association
lists with `dictInsert` / `dictUpdate` / `pydict`.
-/

namespace StatusDash

/-- Display key of a monitored target. -/
abbrev Label := String

/-- The Python type `bool | None` used for a target's health:
`some true` = up, `some false` = down, `none` = unknown. -/
abbrev Status := Option Bool

/-- Oracle for `psutil.win_service_get(name).status()`: either the reported
status string, or the message of the exception the query raised. -/
abbrev ServiceEnv := String → Except String String

/-- Oracle for `socket.connect_ex` after `settimeout`: arguments are the
socket timeout, the host and the port; the result is the C-level error code
(`0` = connection accepted). -/
abbrev NetEnv := Nat → String → Nat → Int

/-- Keys of an association list, in order. -/
def keysOf (m : List (Label × α)) : List Label := m.map Prod.fst

/-- One step of Python dict assignment `d[k] = v`: if the key is present its
value is replaced in place (the key keeps its position), otherwise the pair
is appended. -/
def dictInsert (m : List (Label × α)) (k : Label) (v : α) : List (Label × α) :=
  if k ∈ keysOf m then m.map (fun p => if p.1 = k then (k, v) else p)
  else m ++ [(k, v)]

/-- Python `m.update(entries)`: insert every entry of `entries` in order. -/
def dictUpdate (m entries : List (Label × α)) : List (Label × α) :=
  entries.foldl (fun acc p => dictInsert acc p.1 p.2) m

/-- A Python dict literal / comprehension built from a list of entries. -/
def pydict (entries : List (Label × α)) : List (Label × α) :=
  dictUpdate [] entries

/-- Python `m[k]` / `m.get(k)` on the association-list embedding. -/
def getVal (m : List (Label × α)) (k : Label) : Option α :=
  match m with
  | [] => none
  | p :: rest => if p.1 = k then some p.2 else getVal rest k

/-- The `SERVICES` table of `src/dashboard.py` (lines 23-25):
label ↦ OS service name. -/
def SERVICES : List (Label × String) :=
  [("SQLServer", "MSSQL$MSSQLSERVER01")]

/-- The `PORTS` table of `src/dashboard.py` (lines 26-34): label ↦ port. -/
def PORTS : List (Label × Nat) :=
  [("MongoDB", 27017), ("Solr", 8983), ("Redis", 6379), ("Postgres", 5432),
   ("RabbitMQ", 5672), ("Redacted1", 9876), ("Redacted2", 5445)]

/-- `POLL_SECONDS` (line 35): refresh cadence in seconds. -/
def POLL_SECONDS : Nat := 2

/-- `service_status` (lines 49-53): query the service manager; `True` iff
the reported state is the string `"running"`; any exception from the query
(absent service, permission error, query failure) yields `None`. -/
def service_status (env : ServiceEnv) (name : String) : Status :=
  match env name with
  | Except.ok st => some (decide (st = "running"))
  | Except.error _ => none

/-- `port_status` (lines 56-59): set a 1-second socket timeout, then
`connect_ex((host, port)) == 0`.  The host defaults to `"127.0.0.1"`. -/
def port_status (env : NetEnv) (port : Nat) (host : String := "127.0.0.1") : Bool :=
  decide (env 1 host port = 0)

/-- `get_statuses` (lines 62-66): start from an empty dict, merge in the
service results, then the port results.  The tables `SERVICES` and `PORTS`
are module-level configuration in the source; here they are passed in. -/
def get_statuses (services : List (Label × String)) (ports : List (Label × Nat))
    (senv : ServiceEnv) (penv : NetEnv) : List (Label × Status) :=
  let data : List (Label × Status) := []
  let data := dictUpdate data (pydict (services.map (fun p => (p.1, service_status senv p.2))))
  let data := dictUpdate data (pydict (ports.map (fun p => (p.1, some (port_status penv p.2)))))
  data

/-- `refresh_statuses` line 155: `sum(1 for s in statuses.values() if s)` —
Python truthiness counts exactly the `True` values. -/
def up_count (statuses : List (Label × Status)) : Nat :=
  statuses.countP (fun p => p.2 == some true)

/-- `refresh_statuses` line 156: `sum(1 for s in statuses.values() if s is False)`. -/
def down_count (statuses : List (Label × Status)) : Nat :=
  statuses.countP (fun p => p.2 == some false)

/-- `refresh_statuses` line 157: `sum(1 for s in statuses.values() if s is None)`. -/
def unknown_count (statuses : List (Label × Status)) : Nat :=
  statuses.countP (fun p => p.2 == (none : Status))

/-- The footer content computed by `refresh_statuses` (lines 155-158): the
three counts, plus the wall-clock timestamp string passed to
`FooterBar.update_content`. -/
def refresh_footer (statuses : List (Label × Status)) (now : String) :
    (Nat × Nat × Nat) × String :=
  ((up_count statuses, down_count statuses, unknown_count statuses), now)

/-! ### Association-list lemmas -/

theorem keysOf_nil : keysOf ([] : List (Label × α)) = [] := rfl

theorem keysOf_cons (p : Label × α) (m : List (Label × α)) :
    keysOf (p :: m) = p.1 :: keysOf m := rfl

theorem keysOf_append (m l : List (Label × α)) :
    keysOf (m ++ l) = keysOf m ++ keysOf l := by
  simp [keysOf]

theorem keysOf_mapVal (l : List (Label × α)) (f : Label × α → β) :
    keysOf (l.map (fun p => (p.1, f p))) = keysOf l := by
  rw [keysOf, List.map_map]
  rfl

theorem mem_keysOf_of_mem {m : List (Label × α)} {k : Label} {v : α}
    (h : (k, v) ∈ m) : k ∈ keysOf m := by
  exact List.mem_map.mpr ⟨(k, v), h, rfl⟩

theorem keysOf_dictInsert (m : List (Label × α)) (k : Label) (v : α) :
    keysOf (dictInsert m k v) = if k ∈ keysOf m then keysOf m else keysOf m ++ [k] := by
  by_cases h : k ∈ keysOf m
  · rw [dictInsert, if_pos h, if_pos h, keysOf, List.map_map]
    apply List.map_congr_left
    intro p _
    by_cases hp : p.1 = k
    · simp [hp]
    · simp [hp]
  · rw [dictInsert, if_neg h, if_neg h, keysOf_append]
    rfl

theorem keysOf_dictInsert_nodup {m : List (Label × α)} {k : Label} {v : α}
    (h : (keysOf m).Nodup) : (keysOf (dictInsert m k v)).Nodup := by
  rw [keysOf_dictInsert]
  by_cases hk : k ∈ keysOf m
  · rwa [if_pos hk]
  · rw [if_neg hk, List.nodup_append]
    refine ⟨h, List.nodup_singleton k, ?_⟩
    intro a ha hb
    rw [List.mem_singleton] at hb
    exact hk (hb ▸ ha)

theorem dictUpdate_cons (m : List (Label × α)) (p : Label × α) (l : List (Label × α)) :
    dictUpdate m (p :: l) = dictUpdate (dictInsert m p.1 p.2) l := rfl

theorem keysOf_dictUpdate_nodup {l m : List (Label × α)}
    (h : (keysOf m).Nodup) : (keysOf (dictUpdate m l)).Nodup := by
  induction l generalizing m with
  | nil => exact h
  | cons p l ih => exact ih (keysOf_dictInsert_nodup h)

theorem dictUpdate_eq_append (m l : List (Label × α))
    (hd : ∀ k ∈ keysOf l, k ∉ keysOf m) (hl : (keysOf l).Nodup) :
    dictUpdate m l = m ++ l := by
  induction l generalizing m with
  | nil => simp [dictUpdate]
  | cons p l ih =>
    have hp : p.1 ∉ keysOf m := hd p.1 (by simp [keysOf_cons])
    rw [dictUpdate_cons, dictInsert, if_neg hp]
    rw [keysOf_cons] at hl
    have hl2 : (keysOf l).Nodup := hl.of_cons
    have hpl : p.1 ∉ keysOf l := (List.nodup_cons.mp hl).1
    rw [ih (m ++ [(p.1, p.2)]) ?_ hl2]
    · simp
    · intro k hk
      rw [keysOf_append]
      intro hmem
      rcases List.mem_append.mp hmem with h1 | h1
      · exact hd k (by simp [keysOf_cons, hk]) h1
      · have : k = p.1 := by simpa [keysOf] using h1
        exact hpl (this ▸ hk)

theorem pydict_eq_self (l : List (Label × α)) (hl : (keysOf l).Nodup) :
    pydict l = l := by
  rw [pydict, dictUpdate_eq_append [] l (by simp [keysOf_nil]) hl]
  simp

/-! ### Lookup lemmas -/

theorem getVal_eq_none_of_not_mem {m : List (Label × α)} {k : Label}
    (h : k ∉ keysOf m) : getVal m k = none := by
  induction m with
  | nil => rfl
  | cons p m ih =>
    rw [keysOf_cons] at h
    have h1 : p.1 ≠ k := fun e => h (by simp [e])
    rw [getVal, if_neg h1]
    exact ih (fun e => h (by simp [e]))

theorem getVal_append_chain (m l : List (Label × α)) (k : Label) :
    getVal (m ++ l) k =
      match getVal m k with
      | some v => some v
      | none => getVal l k := by
  induction m with
  | nil => rfl
  | cons p m ih =>
    by_cases h : p.1 = k
    · simp [getVal, if_pos h]
    · simp only [List.cons_append, getVal, if_neg h]
      exact ih

theorem getVal_map_replace {m : List (Label × α)} {k : Label} {v : α}
    (h : k ∈ keysOf m) :
    getVal (m.map (fun p => if p.1 = k then (k, v) else p)) k = some v := by
  induction m with
  | nil => cases h
  | cons p m ih =>
    by_cases hp : p.1 = k
    · simp [getVal, hp]
    · rw [keysOf_cons] at h
      have h2 : k ∈ keysOf m := by
        rcases List.mem_cons.mp h with h1 | h1
        · exact absurd h1.symm hp
        · exact h1
      simp [getVal, hp, ih h2]

theorem getVal_map_replace_ne {k k1 : Label} {v : α} (m : List (Label × α))
    (h : k ≠ k1) :
    getVal (m.map (fun p => if p.1 = k1 then (k1, v) else p)) k = getVal m k := by
  induction m with
  | nil => rfl
  | cons p m ih =>
    by_cases hp : p.1 = k1
    · have h1 : (k1 : Label) ≠ k := fun e => h e.symm
      have h2 : p.1 ≠ k := by rw [hp]; exact h1
      simp [getVal, hp, h1, h2, ih]
    · by_cases hpk : p.1 = k
      · simp [getVal, hp, hpk, h]
      · simp [getVal, hp, hpk, ih]

theorem getVal_dictInsert_self (m : List (Label × α)) (k : Label) (v : α) :
    getVal (dictInsert m k v) k = some v := by
  by_cases h : k ∈ keysOf m
  · rw [dictInsert, if_pos h]
    exact getVal_map_replace h
  · rw [dictInsert, if_neg h, getVal_append_chain, getVal_eq_none_of_not_mem h]
    simp [getVal]

theorem getVal_dictInsert_ne (m : List (Label × α)) {k k1 : Label} (v : α)
    (h : k ≠ k1) : getVal (dictInsert m k1 v) k = getVal m k := by
  by_cases hm : k1 ∈ keysOf m
  · rw [dictInsert, if_pos hm]
    exact getVal_map_replace_ne m h
  · rw [dictInsert, if_neg hm, getVal_append_chain]
    cases hg : getVal m k with
    | some w => rfl
    | none => simp [getVal, Ne.symm h]

theorem getVal_dictUpdate_not_mem {l : List (Label × α)} {k : Label}
    (m : List (Label × α)) (h : k ∉ keysOf l) :
    getVal (dictUpdate m l) k = getVal m k := by
  induction l generalizing m with
  | nil => rfl
  | cons p l ih =>
    rw [keysOf_cons] at h
    rw [dictUpdate_cons, ih (dictInsert m p.1 p.2) (fun e => h (by simp [e]))]
    exact getVal_dictInsert_ne m p.2 (fun e => h (by simp [e]))

theorem getVal_dictUpdate_of_mem {l : List (Label × α)} {k : Label} {v : α}
    (m : List (Label × α)) (hl : (keysOf l).Nodup) (hm : (k, v) ∈ l) :
    getVal (dictUpdate m l) k = some v := by
  induction l generalizing m with
  | nil => cases hm
  | cons p l ih =>
    rw [keysOf_cons] at hl
    rcases List.mem_cons.mp hm with h | h
    · have hp : p = (k, v) := h.symm
      subst hp
      have hnot : k ∉ keysOf l := (List.nodup_cons.mp hl).1
      rw [dictUpdate_cons, getVal_dictUpdate_not_mem _ hnot]
      exact getVal_dictInsert_self m k v
    · exact ih (dictInsert m p.1 p.2) hl.of_cons h

theorem mem_keysOf_of_getVal {m : List (Label × α)} {k : Label} {v : α}
    (h : getVal m k = some v) : k ∈ keysOf m := by
  by_contra hk
  rw [getVal_eq_none_of_not_mem hk] at h
  cases h

theorem getVal_mapVal_of_mem {l : List (Label × α)} {k : Label} {v : α}
    (f : α → β) (hl : (keysOf l).Nodup) (hm : (k, v) ∈ l) :
    getVal (l.map (fun p => (p.1, f p.2))) k = some (f v) := by
  induction l with
  | nil => cases hm
  | cons p l ih =>
    rw [keysOf_cons] at hl
    rcases List.mem_cons.mp hm with h | h
    · have hp : p = (k, v) := h.symm
      subst hp
      simp [getVal]
    · have hk : k ∈ keysOf l := mem_keysOf_of_mem h
      have hne : p.1 ≠ k := fun e => (List.nodup_cons.mp hl).1 (e ▸ hk)
      simp only [List.map_cons, getVal, if_neg hne]
      exact ih hl.of_cons h

/-! ### The snapshot in closed form, and the counts -/

theorem get_statuses_eq_append (services : List (Label × String))
    (ports : List (Label × Nat)) (senv : ServiceEnv) (penv : NetEnv)
    (hs : (keysOf services).Nodup) (hp : (keysOf ports).Nodup)
    (hd : ∀ k ∈ keysOf ports, k ∉ keysOf services) :
    get_statuses services ports senv penv =
      services.map (fun p => (p.1, service_status senv p.2)) ++
        ports.map (fun p => (p.1, some (port_status penv p.2))) := by
  have ks : keysOf (services.map (fun p => (p.1, service_status senv p.2))) = keysOf services :=
    keysOf_mapVal services (fun p => service_status senv p.2)
  have kp : keysOf (ports.map (fun p => (p.1, some (port_status penv p.2)))) = keysOf ports :=
    keysOf_mapVal ports (fun p => some (port_status penv p.2))
  have hdisj2 : ∀ k ∈ keysOf (ports.map (fun p => (p.1, some (port_status penv p.2)))),
      k ∉ keysOf (services.map (fun p => (p.1, service_status senv p.2))) := by
    intro k hk
    rw [ks]
    exact hd k (kp ▸ hk)
  show dictUpdate (dictUpdate []
      (pydict (services.map (fun p => (p.1, service_status senv p.2)))))
      (pydict (ports.map (fun p => (p.1, some (port_status penv p.2))))) = _
  rw [pydict_eq_self _ (ks.symm ▸ hs), pydict_eq_self _ (kp.symm ▸ hp)]
  rw [dictUpdate_eq_append [] _ (by intro k hk; simp [keysOf_nil]) (ks.symm ▸ hs),
    List.nil_append]
  exact dictUpdate_eq_append _ _ hdisj2 (kp.symm ▸ hp)

theorem counts_eq_length (statuses : List (Label × Status)) :
    up_count statuses + down_count statuses + unknown_count statuses = statuses.length := by
  induction statuses with
  | nil => rfl
  | cons p l ih =>
    rcases p with ⟨lb, s⟩
    rcases s with _ | b
    · simp [up_count, down_count, unknown_count, List.countP_cons] at ih ⊢
      omega
    · cases b <;>
        · simp [up_count, down_count, unknown_count, List.countP_cons] at ih ⊢
          omega

/-! ### Concrete oracles used to exercise the theorems -/

/-- An oracle on which every service-manager query raises. -/
def failingServiceEnv : ServiceEnv := fun _ => Except.error "service query failed"

/-- An oracle reporting every queried service as running. -/
def runningServiceEnv : ServiceEnv := fun _ => Except.ok "running"

/-- A network on which every connection attempt is accepted (code 0). -/
def openAllNet : NetEnv := fun _ _ _ => 0

/-- A network on which every connection attempt is refused (`ECONNREFUSED`). -/
def refuseAllNet : NetEnv := fun _ _ _ => 111

/-- A configuration whose single service target reuses a port target's label. -/
def dupServices : List (Label × String) := [("Shared", "SomeService")]

/-- A configuration whose single port target reuses a service target's label. -/
def dupPorts : List (Label × Nat) := [("Shared", 4321)]

/-! ### Claims -/

/-- C1: for every snapshot produced by a polling cycle, the aggregate counts
partition the targets exactly: `up_count + down_count + unknown_count`
equals the number of configured targets, whatever the probe outcomes. -/
theorem snapshot_counts_partition (services : List (Label × String))
    (ports : List (Label × Nat)) (senv : ServiceEnv) (penv : NetEnv)
    (hs : (keysOf services).Nodup) (hp : (keysOf ports).Nodup)
    (hd : ∀ k ∈ keysOf ports, k ∉ keysOf services) :
    up_count (get_statuses services ports senv penv) +
      down_count (get_statuses services ports senv penv) +
      unknown_count (get_statuses services ports senv penv) =
      services.length + ports.length := by
  rw [counts_eq_length, get_statuses_eq_append services ports senv penv hs hp hd]
  simp

/-- Witness for C1 at the configured tables with a failing service manager
and an all-open network. -/
theorem snapshot_counts_partition_witness :
    up_count (get_statuses SERVICES PORTS failingServiceEnv openAllNet) +
      down_count (get_statuses SERVICES PORTS failingServiceEnv openAllNet) +
      unknown_count (get_statuses SERVICES PORTS failingServiceEnv openAllNet) =
      SERVICES.length + PORTS.length :=
  snapshot_counts_partition SERVICES PORTS failingServiceEnv openAllNet
    (by decide) (by decide) (by decide)

/-- C2: the collector is total: whatever every probe does — including a
service manager on which every query raises — the snapshot has exactly the
configured keys, and each target's own probe result is recorded; no probe
outcome removes or skips a sibling's entry. -/
theorem collector_total (services : List (Label × String))
    (ports : List (Label × Nat)) (senv : ServiceEnv) (penv : NetEnv)
    (hs : (keysOf services).Nodup) (hp : (keysOf ports).Nodup)
    (hd : ∀ k ∈ keysOf ports, k ∉ keysOf services) :
    keysOf (get_statuses services ports senv penv) = keysOf services ++ keysOf ports ∧
    (∀ l s, (l, s) ∈ services →
      getVal (get_statuses services ports senv penv) l = some (service_status senv s)) ∧
    (∀ l pt, (l, pt) ∈ ports →
      getVal (get_statuses services ports senv penv) l = some (some (port_status penv pt))) := by
  rw [get_statuses_eq_append services ports senv penv hs hp hd]
  refine ⟨?_, ?_, ?_⟩
  · rw [keysOf_append, keysOf_mapVal, keysOf_mapVal]
  · intro l s hmem
    rw [getVal_append_chain, getVal_mapVal_of_mem (service_status senv) hs hmem]
  · intro l pt hmem
    have hnone : getVal (services.map fun q => (q.1, service_status senv q.2)) l = none := by
      apply getVal_eq_none_of_not_mem
      rw [keysOf_mapVal]
      exact hd l (mem_keysOf_of_mem hmem)
    rw [getVal_append_chain, hnone]
    exact getVal_mapVal_of_mem (fun x => some (port_status penv x)) hp hmem

/-- Witness for C2: with every service query failing, the MongoDB port
entry is still present and carries its own probe's result. -/
theorem collector_total_witness :
    getVal (get_statuses SERVICES PORTS failingServiceEnv openAllNet) "MongoDB" =
      some (some (port_status openAllNet 27017)) :=
  (collector_total SERVICES PORTS failingServiceEnv openAllNet
    (by decide) (by decide) (by decide)).2.2 "MongoDB" 27017 (by decide)

/-- C3: `service_status` is `Up` exactly when the query succeeds reporting
`"running"`, `Down` exactly when it succeeds reporting any other state, and
`Unknown` exactly when the query raises; being a total function of the
query outcome, it never propagates an error. -/
theorem service_status_tristate (env : ServiceEnv) (name : String) :
    (service_status env name = some true ↔ env name = Except.ok "running") ∧
    (service_status env name = some false ↔
      ∃ st, env name = Except.ok st ∧ st ≠ "running") ∧
    (service_status env name = none ↔ ∃ e, env name = Except.error e) := by
  cases h : env name with
  | ok st =>
    by_cases hr : st = "running" <;> simp [service_status, h, hr]
  | error e =>
    simp [service_status, h]

/-- C4: `port_status` is a boolean, never `Unknown`: with the 1-second
timeout set, a `connect_ex` code of 0 (accepted) yields `true` and every
nonzero code (refused, timed out, unreachable, other network error) yields
`false`. -/
theorem port_status_boolean (env : NetEnv) (port : Nat) (host : String) :
    (port_status env port host = true ↔ env 1 host port = 0) ∧
    (port_status env port host = false ↔ env 1 host port ≠ 0) := by
  constructor <;> simp [port_status]

/-- C5: the source performs no configuration-time label validation: a
configuration in which the label `"Shared"` is both a service target and a
port target is silently merged by `get_statuses` into a single entry
carrying the port result — nothing rejects it and nothing halts. -/
theorem duplicate_label_merged_not_rejected :
    get_statuses dupServices dupPorts failingServiceEnv openAllNet =
      [("Shared", some true)] := by
  rfl

/-- C6: the snapshot's label order is the configured order — all service
labels first, then all port labels, each in declaration order — and it is
the same for any two polling cycles (any two oracle pairs). -/
theorem snapshot_order_stable (services : List (Label × String))
    (ports : List (Label × Nat)) (senv senv2 : ServiceEnv) (penv penv2 : NetEnv)
    (hs : (keysOf services).Nodup) (hp : (keysOf ports).Nodup)
    (hd : ∀ k ∈ keysOf ports, k ∉ keysOf services) :
    keysOf (get_statuses services ports senv penv) = keysOf services ++ keysOf ports ∧
    keysOf (get_statuses services ports senv penv) =
      keysOf (get_statuses services ports senv2 penv2) := by
  have h1 : keysOf (get_statuses services ports senv penv) =
      keysOf services ++ keysOf ports := by
    rw [get_statuses_eq_append services ports senv penv hs hp hd, keysOf_append,
      keysOf_mapVal, keysOf_mapVal]
  have h2 : keysOf (get_statuses services ports senv2 penv2) =
      keysOf services ++ keysOf ports := by
    rw [get_statuses_eq_append services ports senv2 penv2 hs hp hd, keysOf_append,
      keysOf_mapVal, keysOf_mapVal]
  exact ⟨h1, h1.trans h2.symm⟩

/-- Witness for C6 at the configured tables, comparing a cycle where
everything fails or refuses with one where everything runs and accepts. -/
theorem snapshot_order_stable_witness :
    keysOf (get_statuses SERVICES PORTS failingServiceEnv refuseAllNet) =
      keysOf SERVICES ++ keysOf PORTS ∧
    keysOf (get_statuses SERVICES PORTS failingServiceEnv refuseAllNet) =
      keysOf (get_statuses SERVICES PORTS runningServiceEnv openAllNet) :=
  snapshot_order_stable SERVICES PORTS failingServiceEnv runningServiceEnv
    refuseAllNet openAllNet (by decide) (by decide) (by decide)

/-- C8: the aggregate counts are a pure function of the snapshot: two
footer computations over the same snapshot agree on all three counts (only
the attached timestamp string differs), and the counts are exactly the
three scans of the snapshot. -/
theorem aggregate_counts_pure (statuses : List (Label × Status)) (t1 t2 : String) :
    (refresh_footer statuses t1).1 = (refresh_footer statuses t2).1 ∧
    (refresh_footer statuses t1).1 =
      (up_count statuses, down_count statuses, unknown_count statuses) :=
  ⟨rfl, rfl⟩

/-- C9: a label configured both as a service and as a port target yields
exactly one snapshot entry, and its status is the port probe's result —
the port merge silently overwrites the service result. -/
theorem duplicate_label_port_overwrites (services : List (Label × String))
    (ports : List (Label × Nat)) (senv : ServiceEnv) (penv : NetEnv)
    (l : Label) (pt : Nat) (hp : (keysOf ports).Nodup)
    (_hsvc : l ∈ keysOf services) (hmem : (l, pt) ∈ ports) :
    getVal (get_statuses services ports senv penv) l = some (some (port_status penv pt)) ∧
    (keysOf (get_statuses services ports senv penv)).count l = 1 := by
  have hpm : (keysOf (ports.map fun p => (p.1, some (port_status penv p.2)))).Nodup := by
    rw [keysOf_mapVal]
    exact hp
  have h1 : getVal (get_statuses services ports senv penv) l =
      some (some (port_status penv pt)) := by
    show getVal (dictUpdate (dictUpdate []
        (pydict (services.map fun p => (p.1, service_status senv p.2))))
        (pydict (ports.map fun p => (p.1, some (port_status penv p.2))))) l = _
    rw [pydict_eq_self _ hpm]
    exact getVal_dictUpdate_of_mem _ hpm (List.mem_map.mpr ⟨(l, pt), hmem, rfl⟩)
  refine ⟨h1, ?_⟩
  have hnd : (keysOf (get_statuses services ports senv penv)).Nodup := by
    show (keysOf (dictUpdate (dictUpdate []
        (pydict (services.map fun p => (p.1, service_status senv p.2))))
        (pydict (ports.map fun p => (p.1, some (port_status penv p.2)))))).Nodup
    exact keysOf_dictUpdate_nodup (keysOf_dictUpdate_nodup (by simp [keysOf_nil]))
  exact List.count_eq_one_of_mem hnd (mem_keysOf_of_getVal h1)

/-- Witness for C9 on the duplicate-label configuration. -/
theorem duplicate_label_port_overwrites_witness :
    getVal (get_statuses dupServices dupPorts failingServiceEnv openAllNet) "Shared" =
      some (some (port_status openAllNet 4321)) ∧
    (keysOf (get_statuses dupServices dupPorts failingServiceEnv openAllNet)).count "Shared" = 1 :=
  duplicate_label_port_overwrites dupServices dupPorts failingServiceEnv openAllNet
    "Shared" 4321 (by decide) (by decide) (by decide)

/-- C10: every port probe the collector issues targets `"127.0.0.1"` with
the socket timeout fixed at 1: each port target's snapshot entry is
`port_status` at that host, and `port_status` consults the network oracle
at timeout 1 and that host only — the per-target configuration carries
neither a host nor a timeout. -/
theorem port_probe_fixed_host_timeout (services : List (Label × String))
    (ports : List (Label × Nat)) (senv : ServiceEnv) (penv : NetEnv)
    (l : Label) (pt : Nat) (hp : (keysOf ports).Nodup) (hmem : (l, pt) ∈ ports) :
    getVal (get_statuses services ports senv penv) l =
      some (some (port_status penv pt "127.0.0.1")) ∧
    port_status penv pt "127.0.0.1" = decide (penv 1 "127.0.0.1" pt = 0) := by
  have hpm : (keysOf (ports.map fun p => (p.1, some (port_status penv p.2)))).Nodup := by
    rw [keysOf_mapVal]
    exact hp
  refine ⟨?_, rfl⟩
  show getVal (dictUpdate (dictUpdate []
      (pydict (services.map fun p => (p.1, service_status senv p.2))))
      (pydict (ports.map fun p => (p.1, some (port_status penv p.2))))) l = _
  rw [pydict_eq_self _ hpm]
  exact getVal_dictUpdate_of_mem _ hpm (List.mem_map.mpr ⟨(l, pt), hmem, rfl⟩)

/-- Witness for C10 at the configured tables: the Redis entry is the port
probe at host "127.0.0.1" and timeout 1. -/
theorem port_probe_fixed_host_timeout_witness :
    getVal (get_statuses SERVICES PORTS failingServiceEnv refuseAllNet) "Redis" =
      some (some (port_status refuseAllNet 6379 "127.0.0.1")) ∧
    port_status refuseAllNet 6379 "127.0.0.1" = decide (refuseAllNet 1 "127.0.0.1" 6379 = 0) :=
  port_probe_fixed_host_timeout SERVICES PORTS failingServiceEnv refuseAllNet
    "Redis" 6379 (by decide) (by decide)

end StatusDash
